import Mathlib

/-!
Verification development for the TelemLogger-Explorer telemetry pipeline.

The repository has two pipeline implementations:
  * `src/telemExplorer.py` (GUI shell): `timecode_to_milliseconds`,
    `filter_data`, `write_json_to_csv`, `create_placemark`, `export_kml`;
  * `src/main.py` (CLI shell): `filter_data`, `export_csv`,
    `create_placemark`, `export_kml`.

This file gives a shallow embedding of those functions and proves the
frozen claims about them.  Conventions of the embedding:

  * A JSON record (Python `dict`) is a key-ordered association list with
    unique keys; `entry['k']` is modelled by `getItem` (a lookup that can
    fail like Python's `KeyError`), `entry.get('k', d)` by a lookup with a
    default.
  * Fallible Python code is modelled in `Except PyErr`; the `PyErr`
    constructors name the Python exception class that the corresponding
    source expression raises.
  * Python integers are `Int`; `a % b` (sign follows the divisor, error on
    a zero divisor) is modelled by `pymod` via `Int.fmod`.
  * The float expression `frames * (1000 / 30)` in
    `timecode_to_milliseconds`, truncated by `int(...)`, is modelled by
    exact integer arithmetic: `int((h*3600+m*60+s)*1000 + f*(1000/30))`
    equals `((h*3600+m*60+s)*30000 + f*1000).tdiv 30` on the magnitudes a
    timecode can take (the double `1000/30` exceeds `100/3` by less than
    `2^-47`, far too little to move the truncation across an integer).
  * File side effects are abstracted to the value written: a CSV export is
    a header plus rows, a KML export is the list of placemarks plus the
    path coordinates.  String formatting that only renders those values
    (the KML `description` text, XML serialisation) is omitted.
-/

/-- A scalar JSON value as it occurs in telemetry records: a string or a
number.  Numbers are modelled as integers; none of the verified claims
depends on fractional numeric values. -/
inductive Value where
  | str (s : String)
  | num (n : ℤ)
deriving DecidableEq, Repr

/-- A telemetry record: Python `dict` as a key-ordered association list. -/
abbrev Record := List (String × Value)

/-- Python exception classes raised by the modelled code. -/
inductive PyErr where
  | keyError
  | indexError
  | valueError
  | typeError
  | zeroDivisionError
  | attributeError
deriving DecidableEq, Repr

/-- Python `entry[k]` on a dict: the value, or a `KeyError`. -/
def getItem (r : Record) (k : String) : Except PyErr Value :=
  match r.lookup k with
  | some v => Except.ok v
  | none => Except.error PyErr.keyError

/-- Python `str(value)` for the values of the model. -/
def Value.pyStr : Value → String
  | Value.str s => s
  | Value.num n => toString n

/-- A CSV cell for an optional field value: the stringified value, or the
empty string when the field is absent (the `.get(key, '')` / `restval=''`
default in the sources). -/
def cellOf : Option Value → String
  | some v => v.pyStr
  | none => ""

/-- Python `a % b` on integers: sign follows the divisor (`Int.fmod`),
and a zero divisor raises `ZeroDivisionError` (modelled as `none`). -/
def pymod (a b : ℤ) : Option ℤ :=
  if b = 0 then none else some (Int.fmod a b)

/-- Python `text.split(':')` on the character list of `text`: the list of
(possibly empty) segments between colons. -/
def splitOnColon : List Char → List (List Char)
  | [] => [[]]
  | c :: rest =>
    match splitOnColon rest with
    | [] => [[]]
    | seg :: segs => if c = ':' then [] :: seg :: segs else (c :: seg) :: segs

/-- The numeric value of a decimal digit character, if it is one. -/
def digitVal? (c : Char) : Option ℕ :=
  if '0' ≤ c ∧ c ≤ '9' then some (c.toNat - ('0').toNat) else none

/-- Accumulator loop of decimal-digit parsing. -/
def parseDigitsAux : ℕ → List Char → Option ℕ
  | acc, [] => some acc
  | acc, c :: cs =>
    match digitVal? c with
    | some d => parseDigitsAux (acc * 10 + d) cs
    | none => none

/-- Parses a nonempty all-digit character list as a natural number. -/
def parseDigitsNE (cs : List Char) : Option ℕ :=
  if cs = [] then none else parseDigitsAux 0 cs

/-- Python `int(text)` restricted to an optional sign followed by decimal
digits (the only shapes the telemetry sources feed it; Python additionally
strips whitespace and accepts underscores, which never occur here). -/
def pyInt : List Char → Option ℤ
  | [] => none
  | c :: rest =>
    if c = '-' then (parseDigitsNE rest).map (fun n => -(n : ℤ))
    else if c = '+' then (parseDigitsNE rest).map (fun n => (n : ℤ))
    else (parseDigitsNE (c :: rest)).map (fun n => (n : ℤ))

namespace TelemExplorer

/-- Millisecond value of four parsed timecode components, telemExplorer.py
line 76: `(hours*3600 + minutes*60 + seconds)*1000 + frames*(1000/30)`,
truncated toward zero by `int(...)` on line 77.  Written with exact
integer arithmetic (`Int.tdiv` truncates toward zero like Python `int`). -/
def tc_ms_of_parts (h m s f : ℤ) : ℤ :=
  ((h * 3600 + m * 60 + s) * 30000 + f * 1000).tdiv 30

/-- Embedding of telemExplorer.py lines 74-77, `timecode_to_milliseconds`: split on
colons, require exactly four integer components (otherwise the unpacking
or `int()` raises `ValueError`), and convert to milliseconds. -/
def timecode_to_milliseconds (timecode : String) : Except PyErr ℤ :=
  match (splitOnColon timecode.data).map pyInt with
  | [some h, some m, some s, some f] => Except.ok (tc_ms_of_parts h m s f)
  | _ => Except.error PyErr.valueError

/-- Applies the codec to a record field value; a non-string value has no
`.split` attribute, so Python raises `AttributeError`. -/
def tcms_of_value : Value → Except PyErr ℤ
  | Value.str s => timecode_to_milliseconds s
  | Value.num _ => Except.error PyErr.attributeError

/-- Embedding of telemExplorer.py lines 81-82: a bound participates only when truthy
(`None` and the empty string are both falsy), and a truthy bound is
converted, propagating a conversion failure. -/
def boundMs (ob : Option String) : Except PyErr (Option ℤ) :=
  match ob with
  | none => Except.ok none
  | some u =>
    if u = "" then Except.ok none
    else (timecode_to_milliseconds u).map some

/-- The inclusion test of telemExplorer.py line 87:
`(from_time_ms is None or from_time_ms <= tc_ms) and
 (to_time_ms is None or tc_ms <= to_time_ms)`. -/
def keepMs (fms tms : Option ℤ) (ms : ℤ) : Bool :=
  (match fms with
   | none => true
   | some f => decide (f ≤ ms)) &&
  (match tms with
   | none => true
   | some t => decide (ms ≤ t))

/-- The record loop of telemExplorer.py lines 84-90: each record's `tc`
field is converted (raising `KeyError` when absent and `AttributeError` /
`ValueError` when unusable) and the record is kept when the inclusion
test passes. -/
def filterLoop (fms tms : Option ℤ) : List Record → Except PyErr (List Record)
  | [] => Except.ok []
  | e :: rest =>
    match getItem e ("tc") with
    | Except.error er => Except.error er
    | Except.ok v =>
      match tcms_of_value v with
      | Except.error er => Except.error er
      | Except.ok ms =>
        match filterLoop fms tms rest with
        | Except.error er => Except.error er
        | Except.ok tail =>
          Except.ok (if keepMs fms tms ms then e :: tail else tail)

/-- Embedding of telemExplorer.py lines 80-90, `filter_data`. -/
def filter_data (data : List Record) (from_time to_time : Option String) :
    Except PyErr (List Record) :=
  match boundMs from_time with
  | Except.error er => Except.error er
  | Except.ok fms =>
    match boundMs to_time with
    | Except.error er => Except.error er
    | Except.ok tms => filterLoop fms tms data

/-- A CSV file as the value it holds: header row plus data rows. -/
structure Csv where
  header : List String
  rows : List (List String)
deriving DecidableEq, Repr

/-- The row loop of telemExplorer.py lines 69-72: the record at 0-based
index `i` contributes a row when `i % (downsample + 1) == 0`; the row has
one cell per selected key, blank when the record lacks the key
(`json_obj.get(key, '')`). -/
def csvRowsGo (downsample : ℤ) (keys : List String) :
    ℕ → List Record → Except PyErr (List (List String))
  | _, [] => Except.ok []
  | i, e :: rest =>
    match pymod (i : ℤ) (downsample + 1) with
    | none => Except.error PyErr.zeroDivisionError
    | some m =>
      match csvRowsGo downsample keys (i + 1) rest with
      | Except.error er => Except.error er
      | Except.ok tail =>
        Except.ok
          (if m = 0 then (keys.map (fun k => cellOf (e.lookup k))) :: tail
           else tail)

/-- Embedding of telemExplorer.py lines 54-72, `write_json_to_csv`: when
`keys_to_include` is not supplied the header is the key list of the first
record (`json_data[0].keys()`, an `IndexError` on an empty list), then one
row is written per retained record. -/
def write_json_to_csv (json_data : List Record) (downsample : ℤ)
    (keys_to_include : Option (List String)) : Except PyErr Csv :=
  match keys_to_include with
  | some keys => (csvRowsGo downsample keys 0 json_data).map (fun rows => ⟨keys, rows⟩)
  | none =>
    match json_data with
    | [] => Except.error PyErr.indexError
    | r :: _ =>
      (csvRowsGo downsample (r.map Prod.fst) 0 json_data).map
        (fun rows => ⟨r.map Prod.fst, rows⟩)

/-- A KML Placemark of telemExplorer.py `create_placemark`: the `tc` value
as its name, the `(longitude, latitude, altitude)` Point geometry, and the
ExtendedData key/value pairs (every field except the three coordinates and
`tc`, stringified).  The `description` text is omitted: it renders the
same fields and raises nothing. -/
structure Placemark where
  name : Value
  coords : Value × Value × Value
  extended : List (String × String)
deriving DecidableEq, Repr

/-- Embedding of telemExplorer.py lines 93-108, `create_placemark`: reads `entry['tc']`
then `entry['longitudeValue']`, `entry['latitudeValue']`,
`entry['altitudeValue']` (each raising `KeyError` when absent, in that
evaluation order). -/
def create_placemark (entry : Record) : Except PyErr Placemark :=
  match getItem entry ("tc") with
  | Except.error er => Except.error er
  | Except.ok tc =>
    match getItem entry ("longitudeValue") with
    | Except.error er => Except.error er
    | Except.ok lon =>
      match getItem entry ("latitudeValue") with
      | Except.error er => Except.error er
      | Except.ok lat =>
        match getItem entry ("altitudeValue") with
        | Except.error er => Except.error er
        | Except.ok alt =>
          Except.ok
            ⟨tc, (lon, lat, alt),
              (entry.filter (fun kv =>
                !(["latitudeValue", "longitudeValue", "altitudeValue", "tc"].contains kv.1))).map
                (fun kv => (kv.1, kv.2.pyStr))⟩

/-- A KML document of telemExplorer.py `export_kml` as the data it writes:
the emitted point Placemarks and the LineString path coordinates. -/
structure KmlDoc where
  placemarks : List Placemark
  path : List (Value × Value × Value)
deriving DecidableEq, Repr

/-- The loop of telemExplorer.py lines 119-126 over `enumerate(data)`
starting at index `i`: a record is retained when
`index % (downsample + 1) == 0`; a retained record additionally becomes a
Placemark when `add_placemarks` holds and
`index % (placemark_downsample + 1) == 0` (both tests on the same original
index), and its coordinates (read by `entry[...]`, `KeyError` when absent)
are appended to the path. -/
def export_kml_go (downsample placemark_downsample : ℤ) (add_placemarks : Bool) :
    ℕ → List Record → Except PyErr (List Placemark × List (Value × Value × Value))
  | _, [] => Except.ok ([], [])
  | i, e :: rest =>
    match pymod (i : ℤ) (downsample + 1) with
    | none => Except.error PyErr.zeroDivisionError
    | some m =>
      if m = 0 then
        match
          (if add_placemarks then
            match pymod (i : ℤ) (placemark_downsample + 1) with
            | none => Except.error PyErr.zeroDivisionError
            | some m2 =>
              if m2 = 0 then (create_placemark e).map some
              else Except.ok none
          else Except.ok none : Except PyErr (Option Placemark)) with
        | Except.error er => Except.error er
        | Except.ok pm? =>
          match getItem e ("longitudeValue") with
          | Except.error er => Except.error er
          | Except.ok lon =>
            match getItem e ("latitudeValue") with
            | Except.error er => Except.error er
            | Except.ok lat =>
              match getItem e ("altitudeValue") with
              | Except.error er => Except.error er
              | Except.ok alt =>
                match export_kml_go downsample placemark_downsample add_placemarks (i + 1) rest with
                | Except.error er => Except.error er
                | Except.ok (pms, cs) =>
                  Except.ok
                    ((match pm? with
                      | some q => q :: pms
                      | none => pms), (lon, lat, alt) :: cs)
      else export_kml_go downsample placemark_downsample add_placemarks (i + 1) rest

/-- Embedding of telemExplorer.py lines 111-137, `export_kml`: the document holding the
emitted Placemarks and the single LineString path over the retained
coordinates.  The code performs no emptiness check: the LineString and the
file write happen unconditionally. -/
def export_kml (data : List Record) (downsample : ℤ) (add_placemarks : Bool)
    (placemark_downsample : ℤ) : Except PyErr KmlDoc :=
  (export_kml_go downsample placemark_downsample add_placemarks 0 data).map
    (fun x => ⟨x.1, x.2⟩)

end TelemExplorer

namespace Main

/-- The inclusion test of main.py lines 36-40: lexicographic string
comparison of the record's `tc` value against whichever bounds are
present. -/
def keepStr (fb tb : Option String) (u : String) : Bool :=
  (match fb with
   | none => true
   | some f => decide (f ≤ u)) &&
  (match tb with
   | none => true
   | some t => decide (u ≤ t))

/-- The comprehension loops of main.py lines 36-40: each record's
`entry['tc']` is read (`KeyError` when absent; comparing a number against
a string would raise `TypeError`) and the record is kept when the string
comparison passes. -/
def mainLoop (fb tb : Option String) : List Record → Except PyErr (List Record)
  | [] => Except.ok []
  | e :: rest =>
    match getItem e ("tc") with
    | Except.error er => Except.error er
    | Except.ok (Value.num _) => Except.error PyErr.typeError
    | Except.ok (Value.str u) =>
      match mainLoop fb tb rest with
      | Except.error er => Except.error er
      | Except.ok tail => Except.ok (if keepStr fb tb u then e :: tail else tail)

/-- Embedding of main.py lines 32-40, `filter_data`: with both bounds `None` the input
list is returned at once (line 34), without touching any record; otherwise
the matching comprehension filters by string comparison. -/
def filter_data (data : List Record) (from_time to_time : Option String) :
    Except PyErr (List Record) :=
  match from_time, to_time with
  | none, none => Except.ok data
  | fb, tb => mainLoop fb tb data

/-- Outcome of main.py `export_csv`: a written file, a silent no-op (the
`if data:` guard on line 44 fails), or a raised exception. -/
inductive TabResult where
  | wrote (c : TelemExplorer.Csv)
  | noop
  | err (e : PyErr)
deriving DecidableEq, Repr

/-- The `csv.DictWriter.writerow` loop of main.py lines 49-50 with the
default `extrasaction='raise'` and `restval=''`: a record containing a
field outside the header raises `ValueError`; a record missing a header
field gets a blank cell. -/
def dictRowsGo (keys : List String) : List Record → Except PyErr (List (List String))
  | [] => Except.ok []
  | e :: rest =>
    if e.all (fun kv => keys.contains kv.1) then
      match dictRowsGo keys rest with
      | Except.error er => Except.error er
      | Except.ok tail => Except.ok ((keys.map (fun k => cellOf (e.lookup k))) :: tail)
    else Except.error PyErr.valueError

/-- Embedding of main.py lines 43-50, `export_csv`: nothing at all happens on an empty
record list; otherwise the header is the first record's key list and the
rows are written by `DictWriter`. -/
def export_csv (data : List Record) : TabResult :=
  match data with
  | [] => TabResult.noop
  | r :: rest =>
    match dictRowsGo (r.map Prod.fst) (r :: rest) with
    | Except.error er => TabResult.err er
    | Except.ok rows => TabResult.wrote ⟨r.map Prod.fst, rows⟩

/-- A KML Placemark of main.py `create_placemark`: its id
(`'pmid-' + entry['tc']`), its name (the `tc` string), the
`(longitude, latitude, altitude)` Point geometry, and the ExtendedData
pairs (every field except the three coordinates; `tc` is included here,
with the raw value). -/
structure MPlacemark where
  pid : String
  pname : String
  coords : Value × Value × Value
  extended : List (String × Value)
deriving DecidableEq, Repr

/-- Embedding of main.py lines 53-65, `create_placemark`: the three coordinates are
read with `entry.get(..., 0.0)` and so default to `0.0` when absent; then
`entry['tc']` is read (`KeyError` when absent) and concatenated onto
`'pmid-'` (`TypeError` when it is not a string). -/
def create_placemark (entry : Record) : Except PyErr MPlacemark :=
  let latitude := (entry.lookup ("latitudeValue")).getD (Value.num 0)
  let longitude := (entry.lookup ("longitudeValue")).getD (Value.num 0)
  let altitude := (entry.lookup ("altitudeValue")).getD (Value.num 0)
  match getItem entry ("tc") with
  | Except.error er => Except.error er
  | Except.ok (Value.num _) => Except.error PyErr.typeError
  | Except.ok (Value.str tc) =>
    Except.ok
      ⟨("pmid-") ++ tc, tc, (longitude, latitude, altitude),
        entry.filter (fun kv =>
          !(["latitudeValue", "longitudeValue", "altitudeValue"].contains kv.1))⟩

end Main

/-- Default-valued millisecond view of a timecode string, used to state
theorems about already-validated data: the codec's value, or `0` when the
codec fails (hypotheses of the theorems rule the failure out). -/
def TelemExplorer.tcmsD (u : String) : ℤ :=
  match TelemExplorer.timecode_to_milliseconds u with
  | Except.ok z => z
  | Except.error _ => 0

/-- Default-valued `tc` millisecond view of a record. -/
def TelemExplorer.msOfD (e : Record) : ℤ :=
  match e.lookup ("tc") with
  | some (Value.str u) => TelemExplorer.tcmsD u
  | _ => 0

/-- Default-valued `tc` string view of a record. -/
def strOfD (e : Record) : String :=
  match e.lookup ("tc") with
  | some (Value.str u) => u
  | _ => ""

/-- Record validity for the millisecond-based filter: the record has a
string `tc` field that the codec converts. -/
def hasMsTc (e : Record) : Prop :=
  ∃ u, e.lookup ("tc") = some (Value.str u) ∧
    ∃ z, TelemExplorer.timecode_to_milliseconds u = Except.ok z

/-- Record validity for the string-based filter: the record has a string
`tc` field. -/
def hasStrTc (e : Record) : Prop :=
  ∃ u, e.lookup ("tc") = some (Value.str u)

/-- Bound validity for the millisecond-based filter: absent, or a
nonempty string that the codec converts. -/
def validBound (ob : Option String) : Prop :=
  match ob with
  | none => True
  | some u => u ≠ "" ∧ ∃ z, TelemExplorer.timecode_to_milliseconds u = Except.ok z

/-- Modelled from the claim C2 (spec §3): milliseconds computed as
`((H*3600 + M*60 + S) * 1000) + round(F * 1000 / frameRate)` with the
frame contribution rounded to the nearest integer. -/
def claimRoundMs (h m s f : ℤ) : ℤ :=
  (h * 3600 + m * 60 + s) * 1000 + round ((f * 1000 : ℚ) / 30)

/-- Modelled from the claim C1 (spec §4.6): a second, independent
downsample pass over the already-track-downsampled sequence, placemark
inclusion being `position mod (placemarkDownsample+1) == 0` evaluated
against positions in that downsampled sequence. -/
def specPlacemarkSelection (data : List Record) (d p : ℕ) : List Record :=
  let kept := ((data.enum).filter (fun ie => ie.1 % (d + 1) == 0)).map Prod.snd
  ((kept.enum).filter (fun ie => ie.1 % (p + 1) == 0)).map Prod.snd

/-- Two-character zero-padded decimal rendering of a component `n ≤ 99`. -/
def twoDigits (n : ℕ) : List Char :=
  [Nat.digitChar (n / 10), Nat.digitChar (n % 10)]

/-- The canonical zero-padded `HH:MM:SS:FF` string of four components. -/
def tcString (h m s f : ℕ) : String :=
  ⟨twoDigits h ++ [':'] ++ twoDigits m ++ [':'] ++ twoDigits s ++ [':'] ++ twoDigits f⟩

/-- A canonical zero-padded timecode string: two digits per component,
minutes and seconds below 60, frames below 30. -/
def CanonicalTc (u : String) : Prop :=
  ∃ h m s f : ℕ, h ≤ 99 ∧ m ≤ 59 ∧ s ≤ 59 ∧ f ≤ 29 ∧ u = tcString h m s f

/-- Milliseconds of in-range components as a natural number: the exact
value `timecode_to_milliseconds` computes on a canonical string. -/
def natMs (h m s f : ℕ) : ℕ :=
  (h * 3600 + m * 60 + s) * 1000 + f * 1000 / 30

example : tcString 1 2 3 4 = "01:02:03:04" := rfl

theorem digitChar_basic : ∀ a < 10, digitVal? (Nat.digitChar a) = some a ∧
    Nat.digitChar a ≠ ':' ∧ Nat.digitChar a ≠ '-' ∧ Nat.digitChar a ≠ '+' := by decide

theorem digitChar_lt_iff : ∀ a < 10, ∀ b < 10,
    (Nat.digitChar a < Nat.digitChar b ↔ a < b) := by decide

theorem digitChar_inj : ∀ a < 10, ∀ b < 10,
    (Nat.digitChar a = Nat.digitChar b ↔ a = b) := by decide

theorem splitOnColon_tcString (h m s f : ℕ) (hh : h ≤ 99) (hm : m ≤ 59)
    (hs : s ≤ 59) (hf : f ≤ 29) :
    splitOnColon (tcString h m s f).data =
      [twoDigits h, twoDigits m, twoDigits s, twoDigits f] := by
  have c1 := (digitChar_basic (h / 10) (by omega)).2.1
  have c2 := (digitChar_basic (h % 10) (by omega)).2.1
  have c3 := (digitChar_basic (m / 10) (by omega)).2.1
  have c4 := (digitChar_basic (m % 10) (by omega)).2.1
  have c5 := (digitChar_basic (s / 10) (by omega)).2.1
  have c6 := (digitChar_basic (s % 10) (by omega)).2.1
  have c7 := (digitChar_basic (f / 10) (by omega)).2.1
  have c8 := (digitChar_basic (f % 10) (by omega)).2.1
  simp [tcString, twoDigits, splitOnColon, c1, c2, c3, c4, c5, c6, c7, c8]

theorem pyInt_twoDigits (n : ℕ) (hn : n ≤ 99) : pyInt (twoDigits n) = some (n : ℤ) := by
  obtain ⟨v1, -, m1, p1⟩ := digitChar_basic (n / 10) (by omega)
  obtain ⟨v2, -, -, -⟩ := digitChar_basic (n % 10) (by omega)
  simp [twoDigits, pyInt, m1, p1, parseDigitsNE, parseDigitsAux, v1, v2]
  omega

theorem tcms_tcString (h m s f : ℕ) (hh : h ≤ 99) (hm : m ≤ 59)
    (hs : s ≤ 59) (hf : f ≤ 29) :
    TelemExplorer.timecode_to_milliseconds (tcString h m s f) =
      Except.ok (TelemExplorer.tc_ms_of_parts h m s f) := by
  unfold TelemExplorer.timecode_to_milliseconds
  rw [splitOnColon_tcString h m s f hh hm hs hf]
  simp [pyInt_twoDigits h (by omega), pyInt_twoDigits m (by omega),
    pyInt_twoDigits s (by omega), pyInt_twoDigits f (by omega)]

theorem tc_ms_of_parts_natCast (h m s f : ℕ) :
    TelemExplorer.tc_ms_of_parts (h : ℤ) (m : ℤ) (s : ℤ) (f : ℤ) = (natMs h m s f : ℤ) := by
  unfold TelemExplorer.tc_ms_of_parts natMs
  rw [Int.tdiv_eq_ediv (by positivity) (by norm_num)]
  push_cast
  omega

theorem natMs_lt_iff (h m s f h' m' s' f' : ℕ) (hm : m ≤ 59) (hs : s ≤ 59)
    (hf : f ≤ 29) (hm' : m' ≤ 59) (hs' : s' ≤ 59) (hf' : f' ≤ 29) :
    natMs h m s f < natMs h' m' s' f' ↔
      (h < h' ∨ (h = h' ∧ (m < m' ∨ (m = m' ∧ (s < s' ∨ (s = s' ∧ f < f')))))) := by
  unfold natMs
  omega

theorem lex_cons_iff_char (a b : Char) (as bs : List Char) :
    List.Lex (fun x y : Char => x < y) (a :: as) (b :: bs) ↔
      a < b ∨ (a = b ∧ List.Lex (fun x y : Char => x < y) as bs) := by
  constructor
  · intro hl
    cases hl with
    | rel hr => exact Or.inl hr
    | cons ht => exact Or.inr ⟨rfl, ht⟩
  · rintro (hr | ⟨rfl, ht⟩)
    · exact List.Lex.rel hr
    · exact List.Lex.cons ht

theorem lex_twoDigits_iff (x y : ℕ) (hx : x ≤ 99) (hy : y ≤ 99) (r r' : List Char) :
    List.Lex (fun a b : Char => a < b) (twoDigits x ++ r) (twoDigits y ++ r') ↔
      (x < y ∨ (x = y ∧ List.Lex (fun a b : Char => a < b) r r')) := by
  unfold twoDigits
  simp only [List.cons_append, List.nil_append]
  rw [lex_cons_iff_char, lex_cons_iff_char,
    digitChar_lt_iff _ (by omega) _ (by omega), digitChar_inj _ (by omega) _ (by omega),
    digitChar_lt_iff _ (by omega) _ (by omega), digitChar_inj _ (by omega) _ (by omega)]
  by_cases hP : List.Lex (fun a b : Char => a < b) r r'
  · simp only [hP, and_true]
    omega
  · simp only [hP, and_false, or_false]
    omega

theorem lex_tcString_iff (h m s f h' m' s' f' : ℕ) (hh : h ≤ 99) (hm : m ≤ 59)
    (hs : s ≤ 59) (hf : f ≤ 29) (hh' : h' ≤ 99) (hm' : m' ≤ 59) (hs' : s' ≤ 59)
    (hf' : f' ≤ 29) :
    List.Lex (fun a b : Char => a < b) (tcString h m s f).data (tcString h' m' s' f').data ↔
      (h < h' ∨ (h = h' ∧ (m < m' ∨ (m = m' ∧ (s < s' ∨ (s = s' ∧ f < f')))))) := by
  have shape : ∀ a b c d : ℕ, (tcString a b c d).data =
      twoDigits a ++ (':' :: (twoDigits b ++ (':' :: (twoDigits c ++ (':' :: (twoDigits d ++ ([] : List Char))))))) := by
    intro a b c d
    simp [tcString]
  rw [shape, shape,
    lex_twoDigits_iff _ _ hh hh', lex_cons_iff_char,
    lex_twoDigits_iff _ _ (by omega) (by omega), lex_cons_iff_char,
    lex_twoDigits_iff _ _ (by omega) (by omega), lex_cons_iff_char,
    lex_twoDigits_iff _ _ (by omega) (by omega)]
  simp [List.Lex.not_nil_right, lt_irrefl]

theorem tcString_le_iff (h m s f h' m' s' f' : ℕ) (hh : h ≤ 99) (hm : m ≤ 59)
    (hs : s ≤ 59) (hf : f ≤ 29) (hh' : h' ≤ 99) (hm' : m' ≤ 59) (hs' : s' ≤ 59)
    (hf' : f' ≤ 29) :
    (tcString h m s f ≤ tcString h' m' s' f') ↔ natMs h m s f ≤ natMs h' m' s' f' := by
  rw [String.le_iff_toList_le, ← not_lt (α := List Char), ← not_lt (α := ℕ)]
  apply not_congr
  have hlt : (tcString h' m' s' f').toList < (tcString h m s f).toList ↔
      List.Lex (fun a b : Char => a < b) (tcString h' m' s' f').data (tcString h m s f).data :=
    Iff.rfl
  rw [hlt, lex_tcString_iff h' m' s' f' h m s f hh' hm' hs' hf' hh hm hs hf,
    natMs_lt_iff h' m' s' f' h m s f hm' hs' hf' hm hs hf]
example : TelemExplorer.timecode_to_milliseconds ("00:00:01:00") = Except.ok 1000 := rfl

theorem pymod_pos (a b : ℤ) (hb : 0 < b) : pymod a b = some (a % b) := by
  unfold pymod
  rw [if_neg (by omega), Int.fmod_eq_emod _ (le_of_lt hb)]

theorem filterLoop_char (fms tms : Option ℤ) (data : List Record)
    (hd : ∀ e ∈ data, hasMsTc e) :
    TelemExplorer.filterLoop fms tms data =
      Except.ok (data.filter
        (fun e => TelemExplorer.keepMs fms tms (TelemExplorer.msOfD e))) := by
  induction data with
  | nil => rfl
  | cons e rest ih =>
    obtain ⟨u, hu, z, hz⟩ := hd e (by simp)
    have hrest := ih (fun x hx => hd x (by simp [hx]))
    have hms : TelemExplorer.msOfD e = z := by
      simp [TelemExplorer.msOfD, hu, TelemExplorer.tcmsD, hz]
    simp only [TelemExplorer.filterLoop, getItem, hu, TelemExplorer.tcms_of_value,
      hz, hrest, List.filter_cons, hms]

theorem mainLoop_char (fb tb : Option String) (data : List Record)
    (hd : ∀ e ∈ data, hasStrTc e) :
    Main.mainLoop fb tb data =
      Except.ok (data.filter (fun e => Main.keepStr fb tb (strOfD e))) := by
  induction data with
  | nil => rfl
  | cons e rest ih =>
    obtain ⟨u, hu⟩ := hd e (by simp)
    have hrest := ih (fun x hx => hd x (by simp [hx]))
    have hstr : strOfD e = u := by simp [strOfD, hu]
    simp only [Main.mainLoop, getItem, hu, hrest, List.filter_cons, hstr]

theorem csvRowsGo_char (d : ℤ) (hd : 0 ≤ d) (keys : List String)
    (data : List Record) (i : ℕ) :
    TelemExplorer.csvRowsGo d keys i data =
      Except.ok (((List.enumFrom i data).filter
          (fun ie => decide ((ie.1 : ℤ) % (d + 1) = 0))).map
        (fun ie => keys.map (fun k => cellOf (ie.2.lookup k)))) := by
  induction data generalizing i with
  | nil => rfl
  | cons e rest ih =>
    have hpy : pymod (i : ℤ) (d + 1) = some ((i : ℤ) % (d + 1)) :=
      pymod_pos _ _ (by omega)
    by_cases hi : ((i : ℤ) % (d + 1)) = 0
    · have hdvd : (d + 1 : ℤ) ∣ (i : ℤ) := Int.dvd_of_emod_eq_zero hi
      simp [TelemExplorer.csvRowsGo, hpy, hi, ih (i + 1), hdvd]
    · have hdvd : ¬ (d + 1 : ℤ) ∣ (i : ℤ) := fun hc => hi (Int.emod_eq_zero_of_dvd hc)
      simp [TelemExplorer.csvRowsGo, hpy, hi, ih (i + 1), hdvd]

/-- Field presence needed by the telemExplorer geospatial export. -/
def geoFields (e : Record) : Prop :=
  (∃ v, e.lookup ("tc") = some v) ∧ (∃ v, e.lookup ("longitudeValue") = some v) ∧
    (∃ v, e.lookup ("latitudeValue") = some v) ∧ (∃ v, e.lookup ("altitudeValue") = some v)

/-- Field value with the junk default used only in statements about
records whose fields are known present. -/
def vGetD (e : Record) (k : String) : Value :=
  (e.lookup k).getD (Value.str (""))

/-- The coordinate triple a record contributes to the path. -/
def coordsD (e : Record) : Value × Value × Value :=
  (vGetD e ("longitudeValue"), vGetD e ("latitudeValue"), vGetD e ("altitudeValue"))

/-- The Placemark a record with all geometry fields yields. -/
def pmD (e : Record) : TelemExplorer.Placemark :=
  ⟨vGetD e ("tc"), coordsD e,
    (e.filter (fun kv =>
      !(["latitudeValue", "longitudeValue", "altitudeValue", "tc"].contains kv.1))).map
      (fun kv => (kv.1, kv.2.pyStr))⟩

theorem create_placemark_ok (e : Record) (hg : geoFields e) :
    TelemExplorer.create_placemark e = Except.ok (pmD e) := by
  obtain ⟨⟨v1, h1⟩, ⟨v2, h2⟩, ⟨v3, h3⟩, ⟨v4, h4⟩⟩ := hg
  simp [TelemExplorer.create_placemark, getItem, h1, h2, h3, h4, pmD, coordsD, vGetD]

theorem export_kml_go_char (d p : ℤ) (hd : 0 ≤ d) (hp : 0 ≤ p)
    (data : List Record) (i : ℕ) (hgeo : ∀ e ∈ data, geoFields e) :
    TelemExplorer.export_kml_go d p true i data = Except.ok
      (((List.enumFrom i data).filter (fun ie =>
          decide ((ie.1 : ℤ) % (d + 1) = 0) && decide ((ie.1 : ℤ) % (p + 1) = 0))).map
        (fun ie => pmD ie.2),
       ((List.enumFrom i data).filter (fun ie =>
          decide ((ie.1 : ℤ) % (d + 1) = 0))).map (fun ie => coordsD ie.2)) := by
  induction data generalizing i with
  | nil => rfl
  | cons e rest ih =>
    obtain ⟨⟨v1, h1⟩, ⟨v2, h2⟩, ⟨v3, h3⟩, ⟨v4, h4⟩⟩ := hgeo e (by simp)
    have hrest := ih (i + 1) (fun x hx => hgeo x (by simp [hx]))
    have hpd : pymod (i : ℤ) (d + 1) = some ((i : ℤ) % (d + 1)) :=
      pymod_pos _ _ (by omega)
    have hpp : pymod (i : ℤ) (p + 1) = some ((i : ℤ) % (p + 1)) :=
      pymod_pos _ _ (by omega)
    have hcp := create_placemark_ok e ⟨⟨v1, h1⟩, ⟨v2, h2⟩, ⟨v3, h3⟩, ⟨v4, h4⟩⟩
    by_cases hi : ((i : ℤ) % (d + 1)) = 0
    · have hdd : (d + 1 : ℤ) ∣ (i : ℤ) := Int.dvd_of_emod_eq_zero hi
      by_cases hj : ((i : ℤ) % (p + 1)) = 0
      · have hdp : (p + 1 : ℤ) ∣ (i : ℤ) := Int.dvd_of_emod_eq_zero hj
        simp [TelemExplorer.export_kml_go, hpd, hpp, hi, hj, hcp, getItem, h2, h3, h4,
          hrest, coordsD, vGetD, hdd, hdp, Except.map]
      · have hdp : ¬ (p + 1 : ℤ) ∣ (i : ℤ) := fun hc => hj (Int.emod_eq_zero_of_dvd hc)
        simp [TelemExplorer.export_kml_go, hpd, hpp, hi, hj, hcp, getItem, h2, h3, h4,
          hrest, coordsD, vGetD, hdd, hdp]
    · have hdd : ¬ (d + 1 : ℤ) ∣ (i : ℤ) := fun hc => hi (Int.emod_eq_zero_of_dvd hc)
      simp [TelemExplorer.export_kml_go, hpd, hpp, hi, hcp, getItem, h2, h3, h4,
        hrest, coordsD, vGetD, hdd]

theorem boundMs_char (ob : Option String) (hb : validBound ob) :
    TelemExplorer.boundMs ob = Except.ok (ob.map TelemExplorer.tcmsD) := by
  match ob with
  | none => rfl
  | some u =>
    obtain ⟨hne, z, hz⟩ := hb
    simp [TelemExplorer.boundMs, hne, hz, TelemExplorer.tcmsD, Except.map]

theorem filter_data_char (data : List Record) (fb tb : Option String)
    (hd : ∀ e ∈ data, hasMsTc e) (hf : validBound fb) (ht : validBound tb) :
    TelemExplorer.filter_data data fb tb =
      Except.ok (data.filter (fun e =>
        TelemExplorer.keepMs (fb.map TelemExplorer.tcmsD) (tb.map TelemExplorer.tcmsD)
          (TelemExplorer.msOfD e))) := by
  unfold TelemExplorer.filter_data
  rw [boundMs_char fb hf, boundMs_char tb ht]
  exact filterLoop_char _ _ data hd

theorem main_filter_data_char (data : List Record) (fb tb : Option String)
    (hd : ∀ e ∈ data, hasStrTc e) :
    Main.filter_data data fb tb =
      Except.ok (data.filter (fun e => Main.keepStr fb tb (strOfD e))) := by
  match fb, tb with
  | none, none =>
    show Except.ok data = _
    simp [Main.keepStr]
  | none, some t => exact mainLoop_char _ _ data hd
  | some fbound, none => exact mainLoop_char _ _ data hd
  | some fbound, some t => exact mainLoop_char _ _ data hd

theorem tcmsD_tcString (h m s f : ℕ) (hh : h ≤ 99) (hm : m ≤ 59) (hs : s ≤ 59)
    (hf : f ≤ 29) :
    TelemExplorer.tcmsD (tcString h m s f) = (natMs h m s f : ℤ) := by
  rw [TelemExplorer.tcmsD, tcms_tcString h m s f hh hm hs hf, tc_ms_of_parts_natCast]

theorem tcString_ne_empty (h m s f : ℕ) : tcString h m s f ≠ "" := by
  intro hc
  have := congrArg String.data hc
  simp [tcString, twoDigits] at this

theorem canonical_hasMsTc (u : String) (hu : CanonicalTc u) :
    u ≠ "" ∧ ∃ z, TelemExplorer.timecode_to_milliseconds u = Except.ok z := by
  obtain ⟨h, m, s, f, bh, bm, bs, bf, rfl⟩ := hu
  exact ⟨tcString_ne_empty h m s f,
    TelemExplorer.tc_ms_of_parts h m s f, tcms_tcString h m s f bh bm bs bf⟩

theorem le_iff_tcmsD (u v : String) (hu : CanonicalTc u) (hv : CanonicalTc v) :
    (u ≤ v) ↔ (TelemExplorer.tcmsD u ≤ TelemExplorer.tcmsD v) := by
  obtain ⟨h, m, s, f, bh, bm, bs, bf, rfl⟩ := hu
  obtain ⟨h', m', s', f', bh', bm', bs', bf', rfl⟩ := hv
  rw [tcmsD_tcString h m s f bh bm bs bf, tcmsD_tcString h' m' s' f' bh' bm' bs' bf',
    tcString_le_iff h m s f h' m' s' f' bh bm bs bf bh' bm' bs' bf', Nat.cast_le]

theorem keepStr_eq_keepMs (fb tb : Option String)
    (hf : fb = none ∨ ∃ u, fb = some u ∧ CanonicalTc u)
    (ht : tb = none ∨ ∃ u, tb = some u ∧ CanonicalTc u)
    (u : String) (hu : CanonicalTc u) :
    Main.keepStr fb tb u =
      TelemExplorer.keepMs (fb.map TelemExplorer.tcmsD) (tb.map TelemExplorer.tcmsD)
        (TelemExplorer.tcmsD u) := by
  have hfpart : (match fb with
      | none => true
      | some f => decide (f ≤ u)) =
      (match fb.map TelemExplorer.tcmsD with
      | none => true
      | some f => decide (f ≤ TelemExplorer.tcmsD u)) := by
    rcases hf with rfl | ⟨v, rfl, hv⟩
    · rfl
    · show decide (v ≤ u) = decide (TelemExplorer.tcmsD v ≤ TelemExplorer.tcmsD u)
      rw [decide_eq_decide]
      exact le_iff_tcmsD v u hv hu
  have htpart : (match tb with
      | none => true
      | some t => decide (u ≤ t)) =
      (match tb.map TelemExplorer.tcmsD with
      | none => true
      | some t => decide (TelemExplorer.tcmsD u ≤ t)) := by
    rcases ht with rfl | ⟨v, rfl, hv⟩
    · rfl
    · show decide (u ≤ v) = decide (TelemExplorer.tcmsD u ≤ TelemExplorer.tcmsD v)
      rw [decide_eq_decide]
      exact le_iff_tcmsD u v hu hv
  unfold Main.keepStr TelemExplorer.keepMs
  rw [hfpart, htpart]

theorem dictRowsGo_char (keys : List String) (data : List Record)
    (hd : ∀ e ∈ data, e.all (fun kv => keys.contains kv.1)) :
    Main.dictRowsGo keys data =
      Except.ok (data.map (fun e => keys.map (fun k => cellOf (e.lookup k)))) := by
  induction data with
  | nil => rfl
  | cons e rest ih =>
    have he := hd e (by simp)
    have hrest := ih (fun x hx => hd x (by simp [hx]))
    simp only [Main.dictRowsGo]
    rw [if_pos he, hrest]
    rfl

/-- Sample record with all four geospatial fields. -/
def geoRec (tc : String) (x : ℤ) : Record :=
  [(("tc"), Value.str tc), (("longitudeValue"), Value.num x),
   (("latitudeValue"), Value.num x), (("altitudeValue"), Value.num x)]

/-- Five-record sample sequence for the placemark-selection claims. -/
def demo5 : List Record :=
  [geoRec ("00:00:00:00") 0, geoRec ("00:00:01:00") 1, geoRec ("00:00:02:00") 2,
   geoRec ("00:00:03:00") 3, geoRec ("00:00:04:00") 4]

/-- Sample record with only a timecode field. -/
def recTcOnly : Record := [(("tc"), Value.str ("00:00:01:00"))]

/-- Sample record with one plain field. -/
def recA : Record := [(("a"), Value.num 1)]

/-- Sample record with an extra field beyond `recA`'s field set. -/
def recAB : Record := [(("a"), Value.num 2), (("b"), Value.num 3)]

/-- Sample record missing only the altitude field. -/
def recNoAlt : Record :=
  [(("tc"), Value.str ("00:00:00:00")), (("longitudeValue"), Value.num 1),
   (("latitudeValue"), Value.num 2)]

/-- Claim C1, counterexample.  With five records, track downsample 1 and
placemark downsample 1, the code (telemExplorer.py lines 119-123) tests
`index % 2 == 0` twice on the same original index, so every retained
record (original indices 0, 2, 4) gets a placemark: three placemarks.
The claim's rule — `position mod (placemarkDownsample+1) == 0` over
positions 0, 1, 2 in the already-downsampled sequence — selects only the
records at downsampled positions 0 and 2 (original indices 0 and 4): two
placemarks.  The two selections differ. -/
theorem claim1_counterexample :
    (TelemExplorer.export_kml demo5 1 true 1).map
        (fun doc => doc.placemarks.map (fun q => q.name)) =
      Except.ok [Value.str ("00:00:00:00"), Value.str ("00:00:02:00"),
        Value.str ("00:00:04:00")] ∧
    (specPlacemarkSelection demo5 1 1).map (fun e => vGetD e ("tc")) =
      [Value.str ("00:00:00:00"), Value.str ("00:00:04:00")] ∧
    ([Value.str ("00:00:00:00"), Value.str ("00:00:02:00"), Value.str ("00:00:04:00")] ≠
      [Value.str ("00:00:00:00"), Value.str ("00:00:04:00")]) := by
  refine ⟨rfl, rfl, by decide⟩

/-- Claim C1, amended.  For non-negative factors and records carrying all
geometry fields, `export_kml` with placemarks enabled emits a point
feature exactly for the records whose ORIGINAL 0-based index `i`
satisfies both `i mod (trackDownsample+1) == 0` (the point is retained)
and `i mod (placemarkDownsample+1) == 0` — the second modulo is evaluated
on the original index, not on the position in the already-downsampled
sequence; the path carries exactly the retained points. -/
theorem claim1_amended (data : List Record) (d p : ℤ) (hd : 0 ≤ d) (hp : 0 ≤ p)
    (hgeo : ∀ e ∈ data, geoFields e) :
    TelemExplorer.export_kml data d true p = Except.ok
      ⟨((data.enum).filter (fun ie =>
          decide ((ie.1 : ℤ) % (d + 1) = 0) && decide ((ie.1 : ℤ) % (p + 1) = 0))).map
        (fun ie => pmD ie.2),
       ((data.enum).filter (fun ie => decide ((ie.1 : ℤ) % (d + 1) = 0))).map
        (fun ie => coordsD ie.2)⟩ := by
  unfold TelemExplorer.export_kml
  rw [export_kml_go_char d p hd hp data 0 hgeo]
  rfl

/-- Claim C1, witness: the amended theorem applied to the five-record
sample with track downsample 1 and placemark downsample 2. -/
theorem claim1_witness :
    TelemExplorer.export_kml demo5 1 true 2 = Except.ok
      ⟨[pmD (geoRec ("00:00:00:00") 0)],
       [coordsD (geoRec ("00:00:00:00") 0), coordsD (geoRec ("00:00:02:00") 2),
        coordsD (geoRec ("00:00:04:00") 4)]⟩ := by
  have h := claim1_amended demo5 1 2 (by decide) (by decide)
    (by
      intro e he
      simp only [demo5, List.mem_cons, List.not_mem_nil, or_false] at he
      rcases he with rfl | rfl | rfl | rfl | rfl <;>
        exact ⟨⟨_, rfl⟩, ⟨_, rfl⟩, ⟨_, rfl⟩, ⟨_, rfl⟩⟩)
  rw [h]
  rfl

/-- Claim C2, counterexample.  At `00:00:00:29` the code computes
`int(29 * (1000/30)) = 966` (truncation), while the claimed rounding
gives `round(29000/30) = 967`. -/
theorem claim2_counterexample :
    TelemExplorer.timecode_to_milliseconds ("00:00:00:29") = Except.ok 966 ∧
    claimRoundMs 0 0 0 29 = 967 ∧ (966 : ℤ) ≠ 967 := by
  refine ⟨rfl, ?_, by decide⟩
  unfold claimRoundMs
  norm_num [round_eq]

/-- Claim C2, amended.  For a timecode string whose four components parse
as the non-negative integers H, M, S, F, the codec returns
`((H*3600 + M*60 + S) * 1000) + (F * 1000) / 30` with the frame
contribution TRUNCATED (floor for non-negative input), not rounded to
nearest. -/
theorem claim2_amended (u : String) (h m s f : ℤ)
    (hparse : (splitOnColon u.data).map pyInt = [some h, some m, some s, some f])
    (hh : 0 ≤ h) (hm : 0 ≤ m) (hs : 0 ≤ s) (hf : 0 ≤ f) :
    TelemExplorer.timecode_to_milliseconds u =
      Except.ok ((h * 3600 + m * 60 + s) * 1000 + (f * 1000) / 30) := by
  unfold TelemExplorer.timecode_to_milliseconds
  rw [hparse]
  show Except.ok (TelemExplorer.tc_ms_of_parts h m s f) = _
  unfold TelemExplorer.tc_ms_of_parts
  rw [Int.tdiv_eq_ediv (by omega) (by norm_num)]
  congr 1
  omega

/-- Claim C2, witness: the amended theorem applied to `01:02:03:04`. -/
theorem claim2_witness :
    TelemExplorer.timecode_to_milliseconds ("01:02:03:04") = Except.ok 3723133 := by
  have h := claim2_amended ("01:02:03:04") 1 2 3 4 rfl (by decide) (by decide)
    (by decide) (by decide)
  rw [h]
  norm_num

/-- Claim C3, confirmed.  For records whose `tc` converts and for valid
(or absent) bounds, both filters return exactly the records passing the
inclusive test `(from absent OR from <= tc) AND (to absent OR tc <= to)`
— `keepMs` compares by millisecond value (telemExplorer.py line 87),
`keepStr` by string order (main.py lines 36-40) — and each result, being
a `List.filter` of the input, is an order-preserving, duplication-free
subsequence of it. -/
theorem claim3_filter_exact (data : List Record) (fb tb : Option String)
    (hd : ∀ e ∈ data, hasMsTc e) (hf : validBound fb) (ht : validBound tb) :
    (TelemExplorer.filter_data data fb tb =
        Except.ok (data.filter (fun e =>
          TelemExplorer.keepMs (fb.map TelemExplorer.tcmsD) (tb.map TelemExplorer.tcmsD)
            (TelemExplorer.msOfD e))) ∧
      (data.filter (fun e =>
        TelemExplorer.keepMs (fb.map TelemExplorer.tcmsD) (tb.map TelemExplorer.tcmsD)
          (TelemExplorer.msOfD e))).Sublist data) ∧
    (Main.filter_data data fb tb =
        Except.ok (data.filter (fun e => Main.keepStr fb tb (strOfD e))) ∧
      (data.filter (fun e => Main.keepStr fb tb (strOfD e))).Sublist data) := by
  have hstr : ∀ e ∈ data, hasStrTc e := by
    intro e he
    obtain ⟨u, hu, -⟩ := hd e he
    exact ⟨u, hu⟩
  exact ⟨⟨filter_data_char data fb tb hd hf ht, List.filter_sublist data⟩,
    ⟨main_filter_data_char data fb tb hstr, List.filter_sublist data⟩⟩

/-- Claim C3, witness: both filters applied to a one-record list with the
lower bound `00:00:00:15`; the record at `00:00:01:00` is retained. -/
theorem claim3_witness :
    TelemExplorer.filter_data [recTcOnly] (some ("00:00:00:15")) none =
      Except.ok [recTcOnly] ∧
    Main.filter_data [recTcOnly] (some ("00:00:00:15")) none =
      Except.ok [recTcOnly] := by
  have h := claim3_filter_exact [recTcOnly] (some ("00:00:00:15")) none
    (by
      intro e he
      simp only [List.mem_cons, List.not_mem_nil, or_false] at he
      subst he
      exact ⟨("00:00:01:00"), rfl, 1000, rfl⟩)
    ⟨by decide, 500, rfl⟩
    trivial
  refine ⟨?_, ?_⟩
  · rw [h.1.1]
    rfl
  · have hle : ("00:00:00:15" : String) ≤ ("00:00:01:00") := by
      rw [le_iff_tcmsD ("00:00:00:15") ("00:00:01:00")
        ⟨0, 0, 0, 15, by decide, by decide, by decide, by decide, rfl⟩
        ⟨0, 0, 1, 0, by decide, by decide, by decide, by decide, rfl⟩]
      decide
    have hpred : Main.keepStr (some ("00:00:00:15")) none (strOfD recTcOnly) = true := by
      show (decide (("00:00:00:15" : String) ≤ ("00:00:01:00")) && true) = true
      rw [decide_eq_true hle]
      rfl
    rw [h.2.1, List.filter_cons, if_pos hpred]
    rfl

/-- Claim C4, counterexample.  telemExplorer.py's `filter_data` converts
`entry['tc']` on line 86 even when both bounds are absent, so on a record
lacking `tc` it raises `KeyError` instead of returning the input list. -/
theorem claim4_counterexample :
    TelemExplorer.filter_data [([] : Record)] none none = Except.error PyErr.keyError ∧
    Except.error PyErr.keyError ≠
      (Except.ok [([] : Record)] : Except PyErr (List Record)) := by
  refine ⟨rfl, by simp⟩

/-- Claim C4, amended.  main.py's `filter_data` returns the input
unchanged for both bounds absent, for every record list including records
lacking `tc` (line 34 short-circuits before touching any record);
telemExplorer.py's `filter_data` does so only when every record has a
convertible `tc` field, and fails on a record without one. -/
theorem claim4_amended (data : List Record) :
    Main.filter_data data none none = Except.ok data ∧
    ((∀ e ∈ data, hasMsTc e) →
      TelemExplorer.filter_data data none none = Except.ok data) := by
  refine ⟨rfl, ?_⟩
  intro hd
  show TelemExplorer.filterLoop none none data = Except.ok data
  rw [filterLoop_char none none data hd]
  simp [TelemExplorer.keepMs]

/-- Claim C4, witness: the amended theorem applied to a one-record list. -/
theorem claim4_witness :
    Main.filter_data [recTcOnly] none none = Except.ok [recTcOnly] ∧
    TelemExplorer.filter_data [recTcOnly] none none = Except.ok [recTcOnly] := by
  have h := claim4_amended [recTcOnly]
  refine ⟨h.1, h.2 ?_⟩
  intro e he
  simp only [List.mem_cons, List.not_mem_nil, or_false] at he
  subst he
  exact ⟨("00:00:01:00"), rfl, 1000, rfl⟩

/-- Claim C5 concerns a code bug: no validation of negative downsample
factors exists anywhere in the source.  With factor `-2` the divisor is
`-1` and Python's `index % -1` is `0` for every index, so
`write_json_to_csv` happily produces output (here: header plus one row);
with factor `-1` the divisor is `0` and the code dies with
`ZeroDivisionError`, not with any `InvalidDownsampleFactor`; `export_kml`
behaves the same way on its track downsample. -/
theorem claim5_negative_factor :
    TelemExplorer.write_json_to_csv [recA] (-2) (some [("a")]) =
      Except.ok ⟨[("a")], [[("1")]]⟩ ∧
    TelemExplorer.write_json_to_csv [recA] (-1) (some [("a")]) =
      Except.error PyErr.zeroDivisionError ∧
    TelemExplorer.export_kml [geoRec ("00:00:00:00") 0] (-2) false 0 =
      Except.ok ⟨[], [coordsD (geoRec ("00:00:00:00") 0)]⟩ := by
  refine ⟨rfl, rfl, rfl⟩

/-- Claim C6, counterexample.  main.py's `export_csv` guards the whole
body with `if data:` (line 44), so on an empty record list it silently
does nothing — no failure, no file. -/
theorem claim6_counterexample :
    Main.export_csv [] = Main.TabResult.noop ∧
    Main.TabResult.noop ≠ Main.TabResult.err PyErr.indexError := by
  refine ⟨rfl, by decide⟩

/-- Claim C6, amended.  On an empty record list with no explicit column
set, telemExplorer.py's `write_json_to_csv` fails (the `json_data[0]`
header derivation raises `IndexError`, the concrete exception behind the
spec's `EmptyInput`) for every downsample factor, while main.py's
`export_csv` silently does nothing. -/
theorem claim6_amended (d : ℤ) :
    TelemExplorer.write_json_to_csv [] d none = Except.error PyErr.indexError ∧
    Main.export_csv [] = Main.TabResult.noop := by
  refine ⟨rfl, rfl⟩

/-- Claim C7 concerns a code bug: telemExplorer.py's `export_kml` has no
emptiness check at all.  On the empty record sequence it builds and
writes a well-formed document containing zero placemarks and a LineString
path with ZERO points, for every factor combination — it does not fail
with `EmptyInput` (no such path exists in the code; only the external
fastkml library could object, and the repository code neither checks nor
catches anything). -/
theorem claim7_empty_export (d p : ℤ) (ap : Bool) :
    TelemExplorer.export_kml [] d ap p =
      Except.ok ⟨([] : List TelemExplorer.Placemark), []⟩ := by
  rfl

/-- Claim C8, counterexample.  main.py's `export_csv` writes rows with
`csv.DictWriter` under the default `extrasaction='raise'`: a later record
carrying a field `b` outside the first record's field set `{a}` raises
`ValueError` instead of being silently dropped. -/
theorem claim8_counterexample :
    Main.export_csv [recA, recAB] = Main.TabResult.err PyErr.valueError ∧
    Main.TabResult.err PyErr.valueError ≠
      Main.TabResult.wrote ⟨[("a")], [[("1")], [("2")]]⟩ := by
  refine ⟨rfl, by decide⟩

/-- Claim C8, amended.  With no column set supplied, telemExplorer.py's
`write_json_to_csv` uses the first record's field names (in that record's
key order) as the header and renders every retained record by
`get(key, '')` over the header — silently dropping fields outside the
header and leaving blank cells for missing ones.  main.py's `export_csv`
derives the header the same way and blanks missing fields, but only
succeeds when no record has a field outside the header; an extra field
raises `ValueError` (see the counterexample) rather than being dropped. -/
theorem claim8_amended (r : Record) (rest : List Record) (d : ℤ) (hd : 0 ≤ d) :
    TelemExplorer.write_json_to_csv (r :: rest) d none = Except.ok
      ⟨r.map Prod.fst,
        ((List.enumFrom 0 (r :: rest)).filter
            (fun ie => decide ((ie.1 : ℤ) % (d + 1) = 0))).map
          (fun ie => (r.map Prod.fst).map (fun k => cellOf (ie.2.lookup k)))⟩ ∧
    ((∀ e ∈ (r :: rest), e.all (fun kv => (r.map Prod.fst).contains kv.1)) →
      Main.export_csv (r :: rest) = Main.TabResult.wrote
        ⟨r.map Prod.fst,
          (r :: rest).map (fun e => (r.map Prod.fst).map (fun k => cellOf (e.lookup k)))⟩) := by
  constructor
  · have hstep : TelemExplorer.write_json_to_csv (r :: rest) d none =
        Except.map (fun rows => (⟨r.map Prod.fst, rows⟩ : TelemExplorer.Csv))
          (TelemExplorer.csvRowsGo d (r.map Prod.fst) 0 (r :: rest)) := rfl
    rw [hstep, csvRowsGo_char d hd (r.map Prod.fst) (r :: rest) 0]
    rfl
  · intro hsub
    have hstep : Main.export_csv (r :: rest) =
        (match Main.dictRowsGo (r.map Prod.fst) (r :: rest) with
         | Except.error er => Main.TabResult.err er
         | Except.ok rows => Main.TabResult.wrote ⟨r.map Prod.fst, rows⟩) := rfl
    rw [hstep, dictRowsGo_char (r.map Prod.fst) (r :: rest) hsub]

/-- Claim C8, witness: the amended theorem applied to a two-record list
whose second record is empty — the header comes from the first record and
the second row is blank. -/
theorem claim8_witness :
    TelemExplorer.write_json_to_csv [recA, ([] : Record)] 0 none =
      Except.ok ⟨[("a")], [[("1")], [("")]]⟩ ∧
    Main.export_csv [recA, ([] : Record)] =
      Main.TabResult.wrote ⟨[("a")], [[("1")], [("")]]⟩ := by
  have h := claim8_amended recA [([] : Record)] 0 (by decide)
  refine ⟨?_, ?_⟩
  · rw [h.1]
    rfl
  · rw [h.2 (by decide)]
    rfl

/-- Claim C9, counterexample.  telemExplorer.py's geospatial export reads
the coordinates with `entry[...]`, so a record missing `altitudeValue`
raises `KeyError` both in `create_placemark` and as a pure path point
(placemarks disabled) — it does not default the coordinate to `0.0`. -/
theorem claim9_counterexample :
    TelemExplorer.create_placemark recNoAlt = Except.error PyErr.keyError ∧
    TelemExplorer.export_kml [recNoAlt] 0 false 0 = Except.error PyErr.keyError := by
  refine ⟨rfl, rfl⟩

/-- Claim C9, amended.  Only main.py's `create_placemark` defaults a
missing latitude, longitude or altitude to `0.0` (via
`entry.get(..., 0.0)`); it needs only a string `tc` field.
telemExplorer.py's export instead fails on a record missing any
coordinate field (see the counterexample). -/
theorem claim9_amended (entry : Record) (tc : String)
    (htc : entry.lookup ("tc") = some (Value.str tc)) :
    Main.create_placemark entry = Except.ok
      ⟨("pmid-") ++ tc, tc,
        ((entry.lookup ("longitudeValue")).getD (Value.num 0),
         (entry.lookup ("latitudeValue")).getD (Value.num 0),
         (entry.lookup ("altitudeValue")).getD (Value.num 0)),
        entry.filter (fun kv =>
          !(["latitudeValue", "longitudeValue", "altitudeValue"].contains kv.1))⟩ := by
  unfold Main.create_placemark
  simp [getItem, htc]

/-- Claim C9, witness: the amended theorem applied to a record with only
a `tc` field — all three coordinates default to `0.0`. -/
theorem claim9_witness :
    Main.create_placemark [(("tc"), Value.str ("00:00:00:00"))] = Except.ok
      ⟨("pmid-00:00:00:00"), ("00:00:00:00"),
        (Value.num 0, Value.num 0, Value.num 0),
        [(("tc"), Value.str ("00:00:00:00"))]⟩ := by
  have h := claim9_amended [(("tc"), Value.str ("00:00:00:00"))] ("00:00:00:00") rfl
  rw [h]
  rfl

/-- Claim C10, confirmed.  When every record's `tc` and every present
bound is a canonical zero-padded `HH:MM:SS:FF` string (minutes and
seconds below 60, frames below 30), main.py's lexicographic string filter
and telemExplorer.py's millisecond filter return identical results: on
canonical strings, string order coincides with millisecond order. -/
theorem claim10_filters_agree (data : List Record) (fb tb : Option String)
    (hd : ∀ e ∈ data, ∃ u, e.lookup ("tc") = some (Value.str u) ∧ CanonicalTc u)
    (hf : fb = none ∨ ∃ u, fb = some u ∧ CanonicalTc u)
    (ht : tb = none ∨ ∃ u, tb = some u ∧ CanonicalTc u) :
    Main.filter_data data fb tb = TelemExplorer.filter_data data fb tb := by
  have hdm : ∀ e ∈ data, hasMsTc e := by
    intro e he
    obtain ⟨u, hu, hcan⟩ := hd e he
    exact ⟨u, hu, (canonical_hasMsTc u hcan).2⟩
  have hds : ∀ e ∈ data, hasStrTc e := by
    intro e he
    obtain ⟨u, hu, -⟩ := hd e he
    exact ⟨u, hu⟩
  have hvf : validBound fb := by
    rcases hf with rfl | ⟨u, rfl, hcan⟩
    · trivial
    · exact canonical_hasMsTc u hcan
  have hvt : validBound tb := by
    rcases ht with rfl | ⟨u, rfl, hcan⟩
    · trivial
    · exact canonical_hasMsTc u hcan
  rw [main_filter_data_char data fb tb hds, filter_data_char data fb tb hdm hvf hvt]
  congr 1
  apply List.filter_congr
  intro e he
  obtain ⟨u, hu, hcan⟩ := hd e he
  have h1 : strOfD e = u := by simp [strOfD, hu]
  have h2 : TelemExplorer.msOfD e = TelemExplorer.tcmsD u := by
    simp [TelemExplorer.msOfD, hu]
  rw [h1, h2]
  exact keepStr_eq_keepMs fb tb hf ht u hcan

/-- Claim C10, witness: both filters applied to a two-record list with
canonical timecodes and bounds `[00:00:00:15, 00:00:00:29]`; both keep
exactly the first record. -/
theorem claim10_witness :
    Main.filter_data [geoRec ("00:00:00:29") 0, geoRec ("00:00:01:00") 1]
        (some ("00:00:00:15")) (some ("00:00:00:29")) =
      TelemExplorer.filter_data [geoRec ("00:00:00:29") 0, geoRec ("00:00:01:00") 1]
        (some ("00:00:00:15")) (some ("00:00:00:29")) ∧
    TelemExplorer.filter_data [geoRec ("00:00:00:29") 0, geoRec ("00:00:01:00") 1]
        (some ("00:00:00:15")) (some ("00:00:00:29")) =
      Except.ok [geoRec ("00:00:00:29") 0] := by
  refine ⟨?_, rfl⟩
  apply claim10_filters_agree
  · intro e he
    simp only [List.mem_cons, List.not_mem_nil, or_false] at he
    rcases he with rfl | rfl
    · exact ⟨("00:00:00:29"), rfl,
        ⟨0, 0, 0, 29, by decide, by decide, by decide, by decide, rfl⟩⟩
    · exact ⟨("00:00:01:00"), rfl,
        ⟨0, 0, 1, 0, by decide, by decide, by decide, by decide, rfl⟩⟩
  · exact Or.inr ⟨("00:00:00:15"), rfl,
      ⟨0, 0, 0, 15, by decide, by decide, by decide, by decide, rfl⟩⟩
  · exact Or.inr ⟨("00:00:00:29"), rfl,
      ⟨0, 0, 0, 29, by decide, by decide, by decide, by decide, rfl⟩⟩
example : TelemExplorer.timecode_to_milliseconds ("00:00:00:29") = Except.ok 966 := rfl
example : TelemExplorer.timecode_to_milliseconds ("0:0:0") = Except.error PyErr.valueError := rfl
